import Mathlib

/-!
Verification of the streaming-aggregation backend (`src/backend/main.ts`).

The backend is a Deno HTTP handler that
  * rejects CORS-preflight and non-POST methods up front,
  * parses the request body as JSON and extracts `prompt`,
  * rejects a falsy prompt (`if (!prompt) throw new Error("Prompt is required")`),
  * POSTs to the Ollama `/api/generate` endpoint,
  * on a non-2xx upstream status throws
    `Ollama API error: {status}, {errorText}` (braces shown here for the JS
    template literal),
  * otherwise reads the upstream body chunk by chunk, decodes each chunk,
    splits it on "\n", and for each non-blank line parses it with
    `JSON.parse`, appending a truthy `response` field to the accumulator;
    a parse failure on a line is logged and skipped,
  * returns `{ response: fullResponse }` with status 200, and maps every
    thrown error to status 500 with `{ error: message }`.

This file gives a shallow embedding: chunks are modelled as the decoded
text of each transport chunk (the code applies `TextDecoder.decode` to each
chunk separately), `JSON.parse` is modelled by an executable JSON parser
over the characters of the line, and the handler is a pure function of the
inbound request and the upstream behaviour.
-/

/-- JSON values, as produced by `JSON.parse`.  Numbers are modelled as
rationals (JSON numbers are decimal literals; IEEE rounding is not modelled,
which is irrelevant here because only truthiness of numbers is ever
consumed).  Objects keep their fields in textual order; duplicate keys are
resolved at lookup time (last occurrence wins, as in JavaScript). -/
inductive Json where
  | null : Json
  | bool (b : Bool) : Json
  | num (q : Rat) : Json
  | str (s : String) : Json
  | arr (elems : List Json) : Json
  | obj (fields : List (String × Json)) : Json

/-- The whitespace accepted between JSON tokens by `JSON.parse`. -/
def isJsonWs (c : Char) : Bool :=
  c == ' ' || c == '\t' || c == '\n' || c == '\r'

/-- Skip JSON whitespace. -/
def skipWs : List Char → List Char
  | [] => []
  | c :: cs => if isJsonWs c then skipWs cs else c :: cs

/-- Value of a decimal digit, if the character is one. -/
def digitVal (c : Char) : Option Nat :=
  if '0' ≤ c ∧ c ≤ '9' then some (c.toNat - '0'.toNat) else none

/-- Value of a hexadecimal digit, if the character is one. -/
def hexVal (c : Char) : Option Nat :=
  if '0' ≤ c ∧ c ≤ '9' then some (c.toNat - '0'.toNat)
  else if 'a' ≤ c ∧ c ≤ 'f' then some (c.toNat - 'a'.toNat + 10)
  else if 'A' ≤ c ∧ c ≤ 'F' then some (c.toNat - 'A'.toNat + 10)
  else none

/-- Single-character string escapes of JSON. -/
def escChar : Char → Option Char
  | '"' => some '"'
  | '\\' => some '\\'
  | '/' => some '/'
  | 'b' => some '\x08'
  | 'f' => some '\x0c'
  | 'n' => some '\n'
  | 'r' => some '\r'
  | 't' => some '\t'
  | _ => none

/-- Parse the body of a JSON string literal (the opening quote already
consumed), returning the decoded characters and the input after the closing
quote.  Raw control characters are rejected, escapes are decoded; a `\u`
escape is mapped through `Char.ofNat` (surrogate-pair recombination is not
modelled). -/
def parseStrBody : List Char → Option (List Char × List Char)
  | [] => none
  | '"' :: cs => some ([], cs)
  | '\\' :: 'u' :: h1 :: h2 :: h3 :: h4 :: cs =>
    match hexVal h1, hexVal h2, hexVal h3, hexVal h4 with
    | some a, some b, some c, some d =>
      (parseStrBody cs).map fun p =>
        (Char.ofNat (((a * 16 + b) * 16 + c) * 16 + d) :: p.1, p.2)
    | _, _, _, _ => none
  | '\\' :: e :: cs =>
    match escChar e with
    | some ch => (parseStrBody cs).map fun p => (ch :: p.1, p.2)
    | none => none
  | c :: cs =>
    if c.toNat < 32 then none
    else (parseStrBody cs).map fun p => (c :: p.1, p.2)

/-- Take a maximal run of decimal digits. -/
def takeDigits : List Char → (List Nat × List Char)
  | [] => ([], [])
  | c :: cs =>
    match digitVal c with
    | some d =>
      match takeDigits cs with
      | (ds, r) => (d :: ds, r)
    | none => ([], c :: cs)

/-- Numeric value of a digit list, most significant first. -/
def digitsNat (ds : List Nat) : Nat := ds.foldl (fun a d => a * 10 + d) 0

/-- Optional fraction part of a JSON number. -/
def parseFrac : List Char → Option (List Nat × List Char)
  | '.' :: r =>
    match takeDigits r with
    | ([], _) => none
    | (fp, rest) => some (fp, rest)
  | cs => some ([], cs)

/-- Optional exponent part of a JSON number. -/
def parseExp : List Char → Option (Int × List Char)
  | [] => some (0, [])
  | c :: r =>
    if c = 'e' ∨ c = 'E' then
      match
        (match r with
         | '+' :: t => ((1 : Int), t)
         | '-' :: t => ((-1 : Int), t)
         | t => ((1 : Int), t)) with
      | (sgn, r2) =>
        match takeDigits r2 with
        | ([], _) => none
        | (ds, rest) => some (sgn * (digitsNat ds : Int), rest)
    else some (0, c :: r)

/-- Rational value of a parsed JSON number. -/
def ratOfParts (neg : Bool) (ip fp : List Nat) (ex : Int) : Rat :=
  let m : Nat := digitsNat ip * 10 ^ fp.length + digitsNat fp
  let e : Int := ex - (fp.length : Int)
  let v : Rat :=
    if 0 ≤ e then (m : Rat) * (10 : Rat) ^ e.toNat
    else (m : Rat) / (10 : Rat) ^ (-e).toNat
  if neg then -v else v

/-- Parse a JSON number (grammar `-? int frac? exp?`; leading zeros in the
integer part are rejected, as in `JSON.parse`). -/
def parseNum (cs : List Char) : Option (Rat × List Char) :=
  match
    (match cs with
     | '-' :: r => (true, r)
     | _ => (false, cs)) with
  | (neg, cs1) =>
    match takeDigits cs1 with
    | ([], _) => none
    | (ip, cs2) =>
      if 1 < ip.length ∧ ip.headD 1 = 0 then none
      else
        match parseFrac cs2 with
        | none => none
        | some (fp, cs3) =>
          match parseExp cs3 with
          | none => none
          | some (ex, cs4) => some (ratOfParts neg ip fp ex, cs4)

mutual

/-- Fuelled parser for a single JSON value (leading whitespace allowed). -/
def parseVal : Nat → List Char → Option (Json × List Char)
  | 0, _ => none
  | Nat.succ fuel, cs0 =>
    match skipWs cs0 with
    | [] => none
    | c :: rest =>
      if c = '"' then
        match parseStrBody rest with
        | some (chars, r) => some (Json.str (String.mk chars), r)
        | none => none
      else if c = '\x7b' then
        match skipWs rest with
        | '\x7d' :: r => some (Json.obj [], r)
        | cs2 => parseMembers fuel cs2 []
      else if c = '[' then
        match skipWs rest with
        | ']' :: r => some (Json.arr [], r)
        | cs2 => parseElems fuel cs2 []
      else if c = 't' then
        match rest with
        | 'r' :: 'u' :: 'e' :: r => some (Json.bool true, r)
        | _ => none
      else if c = 'f' then
        match rest with
        | 'a' :: 'l' :: 's' :: 'e' :: r => some (Json.bool false, r)
        | _ => none
      else if c = 'n' then
        match rest with
        | 'u' :: 'l' :: 'l' :: r => some (Json.null, r)
        | _ => none
      else if c = '-' ∨ (digitVal c).isSome then
        match parseNum (c :: rest) with
        | some (q, r) => some (Json.num q, r)
        | none => none
      else none

/-- Fuelled parser for the members of a JSON object after at least one
member is known to follow. -/
def parseMembers : Nat → List Char → List (String × Json) →
    Option (Json × List Char)
  | 0, _, _ => none
  | Nat.succ fuel, cs, acc =>
    match skipWs cs with
    | '"' :: r =>
      match parseStrBody r with
      | some (kchars, r2) =>
        match skipWs r2 with
        | ':' :: r3 =>
          match parseVal fuel r3 with
          | some (v, r4) =>
            match skipWs r4 with
            | ',' :: r5 => parseMembers fuel r5 (acc ++ [(String.mk kchars, v)])
            | '\x7d' :: r5 => some (Json.obj (acc ++ [(String.mk kchars, v)]), r5)
            | _ => none
          | none => none
        | _ => none
      | none => none
    | _ => none

/-- Fuelled parser for the elements of a JSON array after at least one
element is known to follow. -/
def parseElems : Nat → List Char → List Json → Option (Json × List Char)
  | 0, _, _ => none
  | Nat.succ fuel, cs, acc =>
    match parseVal fuel cs with
    | some (v, r) =>
      match skipWs r with
      | ',' :: r2 => parseElems fuel r2 (acc ++ [v])
      | ']' :: r2 => some (Json.arr (acc ++ [v]), r2)
      | _ => none
    | none => none

end

/-- Model of `JSON.parse`: parse one value, allow surrounding whitespace,
reject trailing input.  The fuel is generous — it only bounds the number of
recursive descents, each of which consumes input. -/
def Json.parse (s : String) : Option Json :=
  match parseVal (2 * s.data.length + 2) s.data with
  | some (v, rest) => if skipWs rest = [] then some v else none
  | none => none

/-- JavaScript truthiness of a JSON value (`if (x)` on the parsed value):
`null`, `false`, `0` and `""` are falsy, everything else truthy. -/
def Json.truthy : Json → Bool
  | Json.null => false
  | Json.bool b => b
  | Json.num q => if q = 0 then false else true
  | Json.str s => if s = "" then false else true
  | Json.arr _ => true
  | Json.obj _ => true

/-- JavaScript property access `v.k` on a parsed JSON value: on an object
the last field with the key (duplicate keys in `JSON.parse` keep the last
value), otherwise `undefined` (modelled as `none`).  `v.k` on `null` throws
a TypeError; call sites model that throw explicitly where it matters. -/
def Json.getField : Json → String → Option Json
  | Json.obj fields, k =>
    fields.foldl (fun acc p => if p.1 = k then some p.2 else acc) none
  | _, _ => none

/-- Truthiness of a possibly-undefined value (`if (x.k)`). -/
def jsTruthyOpt : Option Json → Bool
  | some v => v.truthy
  | none => false

mutual

/-- JavaScript string coercion `"" + v` of a parsed JSON value.  Number
formatting is approximated (integers print exactly as in JS; the JS float
formatting of non-integers is not reproduced) — the handler only ever
coerces values it appends to the accumulator, and the theorems below are
stated for string-valued `response` fields, where the coercion is the
identity. -/
def jsToString : Json → String
  | Json.null => "null"
  | Json.bool b => if b then "true" else "false"
  | Json.num q => if q.den = 1 then toString q.num else toString q
  | Json.str s => s
  | Json.arr xs => String.intercalate "," (jsArrParts xs)
  | Json.obj _ => "[object Object]"

/-- Elementwise coercion used by `Array.prototype.toString` (a `join` with
"," in which `null` becomes the empty string). -/
def jsArrParts : List Json → List String
  | [] => []
  | Json.null :: xs => "" :: jsArrParts xs
  | x :: xs => jsToString x :: jsArrParts xs

end

/-- Whitespace removed by JavaScript `String.prototype.trim` (the common
cases; exotic Unicode space separators are omitted — a line made only of
those would fail `JSON.parse` as well, leaving the accumulator unchanged
either way). -/
def isJsWs (c : Char) : Bool :=
  c == ' ' || c == '\t' || c == '\n' || c == '\r' || c == '\x0b' ||
  c == '\x0c' || c.toNat == 160 || c.toNat == 65279

/-- `line.trim() !== ""`: the line has at least one non-whitespace
character. -/
def nonBlank (line : String) : Bool :=
  line.data.any fun c => !(isJsWs c)

/-- `chunk.split("\n")` on the characters: split at every newline,
yielding one more part than there are newlines. -/
def splitNl : List Char → List (List Char)
  | [] => [[]]
  | c :: cs =>
    if c = '\n' then [] :: splitNl cs
    else
      match splitNl cs with
      | l :: ls => (c :: l) :: ls
      | [] => [[c]]

/-- `chunk.split("\n")` as used in the stream loop. -/
def splitLines (s : String) : List String :=
  (splitNl s.data).map fun l => String.mk l

/-- Body of the per-line loop: `JSON.parse` the line; on success append a
truthy `response` field to the accumulator.  A parse failure is caught,
logged and skipped; property access `jsonResponse.response` on a parsed
`null` throws a TypeError caught by the same catch, which coincides with
the `undefined`-field case (accumulator unchanged).  The `if
(jsonResponse.done)` branch of the source is empty and has no effect. -/
def processLine (acc : String) (line : String) : String :=
  match Json.parse line with
  | none => acc
  | some v =>
    match v.getField "response" with
    | some r => if r.truthy then acc ++ jsToString r else acc
    | none => acc

/-- One iteration of the `for (const line of lines)` loop. -/
def lineStep (acc : String) (line : String) : String :=
  if nonBlank line then processLine acc line else acc

/-- Processing of one decoded chunk: split on "\n" and run the line loop.
No state other than the accumulator crosses chunk boundaries — in
particular a trailing partial line of a chunk is NOT carried over to the
next chunk. -/
def processChunk (acc : String) (chunk : String) : String :=
  (splitLines chunk).foldl lineStep acc

/-- The whole read loop: fold the chunks of the upstream stream into the
accumulator `fullResponse`, starting from `""`. -/
def aggregate (chunks : List String) : String :=
  chunks.foldl processChunk ""

/-- The upstream behaviour observed by one request: the HTTP status of the
`fetch`, the body text read in the error path, whether a body reader is
obtainable, and the decoded text of each chunk the reader yields (the code
applies `TextDecoder.decode` to each chunk separately). -/
structure Upstream where
  status : Nat
  bodyText : String
  hasReader : Bool
  chunks : List String

/-- An inbound HTTP request: its method and the result of `req.json()` —
either a parsed JSON body or the message of the thrown SyntaxError. -/
structure InboundRequest where
  method : String
  body : Except String Json

/-- The response body built by the handler: `null` (the 204 preflight),
`JSON.stringify({ response: text })`, or `JSON.stringify({ error: msg })`. -/
inductive Body where
  | empty : Body
  | success (text : String) : Body
  | failure (msg : String) : Body
deriving DecidableEq

/-- Outbound status and body (the CORS headers are a fixed constant on
every branch and are not modelled separately). -/
structure HttpResponse where
  status : Nat
  body : Body
deriving DecidableEq

/-- What one invocation of the handler produces: the HTTP response, and
whether the upstream `fetch` was issued. -/
structure HandlerResult where
  response : HttpResponse
  upstreamCalled : Bool
deriving DecidableEq

/-- Message of the TypeError thrown by `const { prompt } = requestBody`
when the parsed body is `null` (runtime-dependent wording; no theorem
depends on this text). -/
def destructureNullMsg : String :=
  "Cannot destructure property 'prompt' of 'requestBody' as it is null."

/-- The request handler of `Deno.serve`, as a pure function of the inbound
request and the upstream behaviour.  Branches in source order:
CORS preflight; method check; body parse; `if (!prompt)`; `fetch`; the
`response.ok` check; the body-reader check; the read loop; with every
thrown error mapped to a 500 `{ error }` response by the outer catch. -/
def handle (req : InboundRequest) (up : Upstream) : HandlerResult :=
  if req.method = "OPTIONS" then
    ⟨⟨204, Body.empty⟩, false⟩
  else if req.method ≠ "POST" then
    ⟨⟨405, Body.failure "Method Not Allowed"⟩, false⟩
  else
    match req.body with
    | Except.error msg => ⟨⟨500, Body.failure msg⟩, false⟩
    | Except.ok Json.null => ⟨⟨500, Body.failure destructureNullMsg⟩, false⟩
    | Except.ok b =>
      if !(jsTruthyOpt (b.getField "prompt")) then
        ⟨⟨500, Body.failure "Prompt is required"⟩, false⟩
      else if ¬ (200 ≤ up.status ∧ up.status ≤ 299) then
        ⟨⟨500, Body.failure
          ("Ollama API error: " ++ toString up.status ++ ", " ++ up.bodyText)⟩,
         true⟩
      else if !up.hasReader then
        ⟨⟨500, Body.failure "Unable to read response body"⟩, true⟩
      else
        ⟨⟨200, Body.success (aggregate up.chunks)⟩, true⟩

/-- Serving a sequence of independent requests: the module has no mutable
state (`corsOptions` is a constant; `fullResponse` and the reader are local
to one invocation), so the server is the per-request handler mapped over
the sequence. -/
def serveAll (reqs : List (InboundRequest × Upstream)) : List HandlerResult :=
  reqs.map fun ru => handle ru.1 ru.2

/-! ### Basic string lemmas -/

theorem strExt {a b : String} (h : a.data = b.data) : a = b := by
  cases a; cases b; cases h; rfl

theorem strData_append (a b : String) : (a ++ b).data = a.data ++ b.data := by
  cases a; cases b; rfl

theorem strAppend_nil (a : String) : a ++ "" = a := by
  apply strExt; rw [strData_append]; exact List.append_nil _

theorem strNil_append (a : String) : "" ++ a = a := by
  apply strExt; rw [strData_append]; exact List.nil_append _

theorem strAppend_assoc (a b c : String) : a ++ b ++ c = a ++ (b ++ c) := by
  apply strExt; rw [strData_append, strData_append, strData_append,
    strData_append, List.append_assoc]

/-! ### The accumulator grows by a contribution independent of its value -/

theorem processLine_split (a l : String) :
    processLine a l = a ++ processLine "" l := by
  unfold processLine
  cases h : Json.parse l with
  | none => simp [strAppend_nil]
  | some v =>
    cases hf : v.getField "response" with
    | none => simp only [hf]; simp [strAppend_nil]
    | some r =>
      simp only [hf]
      by_cases ht : r.truthy = true
      · simp [ht, strNil_append]
      · simp [ht, strAppend_nil]

theorem lineStep_split (a l : String) : lineStep a l = a ++ lineStep "" l := by
  unfold lineStep
  by_cases h : nonBlank l = true
  · rw [if_pos h, if_pos h]; exact processLine_split a l
  · rw [if_neg h, if_neg h]; exact (strAppend_nil a).symm

theorem foldl_lineStep_split (a : String) (ls : List String) :
    ls.foldl lineStep a = a ++ ls.foldl lineStep "" := by
  induction ls generalizing a with
  | nil => exact (strAppend_nil a).symm
  | cons l ls ih =>
    simp only [List.foldl_cons]
    rw [ih (lineStep a l), lineStep_split a l, strAppend_assoc,
      ← ih (lineStep "" l)]

theorem processChunk_split (a c : String) :
    processChunk a c = a ++ processChunk "" c := by
  unfold processChunk; exact foldl_lineStep_split a (splitLines c)

theorem foldl_processChunk_split (a : String) (cs : List String) :
    cs.foldl processChunk a = a ++ cs.foldl processChunk "" := by
  induction cs generalizing a with
  | nil => exact (strAppend_nil a).symm
  | cons c cs ih =>
    simp only [List.foldl_cons]
    rw [ih (processChunk a c), processChunk_split a c, strAppend_assoc,
      ← ih (processChunk "" c)]

/-- Reading never stops early: the text accumulated over a longer stream is
the text of the prefix followed by the contribution of the suffix. -/
theorem aggregate_append (cs ds : List String) :
    aggregate (cs ++ ds) = aggregate cs ++ aggregate ds := by
  unfold aggregate
  rw [List.foldl_append, foldl_processChunk_split (cs.foldl processChunk "") ds]

/-! ### Chunks made of whole lines -/

/-- Serialize a block of lines into one transport chunk, each line followed
by the "\n" terminator. -/
def chunkOfLines : List String → String
  | [] => ""
  | l :: ls => l ++ "\n" ++ chunkOfLines ls

/-- The line contains no terminator. -/
def nlFree (s : String) : Bool := s.data.all fun c => !(c == '\n')

theorem nlFree_notMem {s : String} (h : nlFree s = true) : '\n' ∉ s.data := by
  intro m
  have := List.all_eq_true.mp h _ m
  simp at this

theorem strMk_data (s : String) : String.mk s.data = s := by cases s; rfl

theorem splitNl_append (a b : List Char) (h : '\n' ∉ a) :
    splitNl (a ++ '\n' :: b) = a :: splitNl b := by
  induction a with
  | nil => simp [splitNl]
  | cons c a ih =>
    have hc : c ≠ '\n' := fun e => h (e ▸ List.mem_cons_self c a)
    have ha : '\n' ∉ a := fun m => h (List.mem_cons_of_mem _ m)
    simp [splitNl, hc, ih ha]

theorem splitLines_chunkOfLines (ls : List String)
    (h : ∀ l ∈ ls, nlFree l = true) :
    splitLines (chunkOfLines ls) = ls ++ [""] := by
  induction ls with
  | nil => rfl
  | cons l ls ih =>
    have hd : (l ++ "\n" ++ chunkOfLines ls).data
        = l.data ++ '\n' :: (chunkOfLines ls).data := by
      rw [strData_append, strData_append, List.append_assoc]; rfl
    show splitLines (l ++ "\n" ++ chunkOfLines ls) = (l :: ls) ++ [""]
    unfold splitLines
    rw [hd, splitNl_append _ _ (nlFree_notMem (h l (List.mem_cons_self l ls)))]
    simp only [List.map_cons, strMk_data, List.cons_append]
    rw [show (splitNl (chunkOfLines ls).data).map (fun cs => String.mk cs)
        = splitLines (chunkOfLines ls) from rfl,
      ih fun x hx => h x (List.mem_cons_of_mem _ hx)]

theorem processChunk_chunkOfLines (a : String) (ls : List String)
    (h : ∀ l ∈ ls, nlFree l = true) :
    processChunk a (chunkOfLines ls) = ls.foldl lineStep a := by
  unfold processChunk
  rw [splitLines_chunkOfLines ls h, List.foldl_append]
  rfl

/-- Aggregating chunks that are blocks of whole lines is a fold of the line
loop over the flattened line sequence — the grouping into chunks is
invisible. -/
theorem aggregate_blocks (blocks : List (List String))
    (h : ∀ l ∈ blocks.flatten, nlFree l = true) :
    aggregate (blocks.map chunkOfLines) = blocks.flatten.foldl lineStep "" := by
  induction blocks with
  | nil => rfl
  | cons b bs ih =>
    have hb : ∀ l ∈ b, nlFree l = true := by
      intro l hl
      exact h l (by rw [List.flatten_cons]; exact List.mem_append_left _ hl)
    have hbs : ∀ l ∈ bs.flatten, nlFree l = true := by
      intro l hl
      exact h l (by rw [List.flatten_cons]; exact List.mem_append_right _ hl)
    show aggregate (chunkOfLines b :: bs.map chunkOfLines)
        = ((b :: bs).flatten).foldl lineStep ""
    unfold aggregate
    simp only [List.foldl_cons]
    rw [foldl_processChunk_split, processChunk_chunkOfLines "" b hb]
    rw [show (bs.map chunkOfLines).foldl processChunk ""
        = aggregate (bs.map chunkOfLines) from rfl,
      ih hbs, List.flatten_cons, List.foldl_append,
      foldl_lineStep_split (b.foldl lineStep "")]

/-! ### Per-line response fragments -/

theorem foldl_strAppend_split (a : String) (ls : List String) :
    ls.foldl (fun r s => r ++ s) a = a ++ ls.foldl (fun r s => r ++ s) "" := by
  induction ls generalizing a with
  | nil => exact (strAppend_nil a).symm
  | cons l ls ih =>
    simp only [List.foldl_cons]
    rw [ih (a ++ l), ih ("" ++ l), strNil_append, strAppend_assoc]

theorem strJoin_cons (s : String) (ls : List String) :
    String.join (s :: ls) = s ++ String.join ls := by
  unfold String.join
  simp only [List.foldl_cons]
  rw [strNil_append]
  exact foldl_strAppend_split s ls

/-- The `response` fragment a line contributes, when the line is a record
in the sense of the upstream contract: it must parse to a JSON object whose
`response` field, if present, is a string (the `OllamaResponse` interface);
a missing `response` field contributes the empty fragment. -/
def respStringOf (line : String) : Option String :=
  match Json.parse line with
  | some (Json.obj fs) =>
    match (Json.obj fs).getField "response" with
    | some (Json.str s) => some s
    | none => some ""
    | some _ => none
  | _ => none

theorem lineStep_resp {line s : String} (h1 : nonBlank line = true)
    (h2 : respStringOf line = some s) (a : String) :
    lineStep a line = a ++ s := by
  unfold lineStep
  rw [if_pos h1]
  unfold processLine
  unfold respStringOf at h2
  cases hp : Json.parse line with
  | none => simp [hp] at h2
  | some v =>
    simp only [hp] at h2 ⊢
    cases v with
    | null => exact Option.noConfusion h2
    | bool b => exact Option.noConfusion h2
    | num q => exact Option.noConfusion h2
    | str t => exact Option.noConfusion h2
    | arr xs => exact Option.noConfusion h2
    | obj fs =>
      cases hf : (Json.obj fs).getField "response" with
      | none =>
        simp only [hf] at h2 ⊢
        cases h2
        exact (strAppend_nil a).symm
      | some r =>
        simp only [hf] at h2 ⊢
        cases r with
        | null => exact Option.noConfusion h2
        | bool b => exact Option.noConfusion h2
        | num q => exact Option.noConfusion h2
        | arr xs => exact Option.noConfusion h2
        | obj fs2 => exact Option.noConfusion h2
        | str t =>
          have hts : t = s := Option.some.inj h2
          subst hts
          by_cases ht : t = ""
          · subst ht; simp [Json.truthy, strAppend_nil]
          · simp [Json.truthy, ht, jsToString]

theorem foldl_resp (ls : List String)
    (h : ∀ l ∈ ls, nonBlank l = true ∧ (respStringOf l).isSome) :
    ls.foldl lineStep ""
      = String.join (ls.map fun l => (respStringOf l).getD "") := by
  induction ls with
  | nil => rfl
  | cons l ls ih =>
    obtain ⟨h1, h2⟩ := h l (List.mem_cons_self l ls)
    obtain ⟨s, hs⟩ := Option.isSome_iff_exists.mp h2
    simp only [List.foldl_cons, List.map_cons]
    rw [foldl_lineStep_split, lineStep_resp h1 hs, strNil_append,
      ih fun x hx => h x (List.mem_cons_of_mem _ hx), strJoin_cons, hs]
    rfl

/-! ### The handler's success path -/

theorem handle_success (b : Json) (hb : jsTruthyOpt (b.getField "prompt") = true)
    (st : Nat) (h1 : 200 ≤ st) (h2 : st ≤ 299) (bt : String)
    (chunks : List String) :
    handle ⟨"POST", Except.ok b⟩ ⟨st, bt, true, chunks⟩
      = ⟨⟨200, Body.success (aggregate chunks)⟩, true⟩ := by
  cases b with
  | null => simp [Json.getField, jsTruthyOpt] at hb
  | bool v => simp [Json.getField, jsTruthyOpt] at hb
  | num q => simp [Json.getField, jsTruthyOpt] at hb
  | str t => simp [Json.getField, jsTruthyOpt] at hb
  | arr xs => simp [Json.getField, jsTruthyOpt] at hb
  | obj fs =>
    have m1 : ¬(("POST" : String) = "OPTIONS") := by decide
    have m2 : ¬(("POST" : String) ≠ "POST") := by decide
    unfold handle
    rw [if_neg m1, if_neg m2]
    simp only [hb, Bool.not_true, Bool.false_eq_true, if_false]
    rw [if_neg (not_not_intro ⟨h1, h2⟩)]

/-! ### Claims -/

/-- Claim C1, counterexample: one upstream record with `response` "ok" and
`done` true, split by the transport between `...resp` and `onse...`, makes
the handler return the empty string, while the same record delivered in a
single chunk returns "ok" — the result is NOT independent of how chunk
boundaries split the records, because the loop splits each chunk on "\n"
independently and carries nothing across chunks. -/
theorem C1_counterexample :
    handle ⟨"POST", Except.ok (Json.obj [("prompt", Json.str "Hi")])⟩
        ⟨200, "", true, ["\x7b\"resp", "onse\":\"ok\",\"done\":true\x7d\n"]⟩
      = ⟨⟨200, Body.success ""⟩, true⟩ ∧
    handle ⟨"POST", Except.ok (Json.obj [("prompt", Json.str "Hi")])⟩
        ⟨200, "", true, ["\x7b\"resp" ++ "onse\":\"ok\",\"done\":true\x7d\n"]⟩
      = ⟨⟨200, Body.success "ok"⟩, true⟩ ∧
    ("" : String) ≠ "ok" :=
  ⟨rfl, rfl, by decide⟩

/-- Claim C1 (amended): for a valid request with a truthy prompt and a 2xx
upstream whose stream delivers the records grouped into chunks of whole
lines (each line a record whose `response` field, if present, is a string),
the success text is the concatenation, in arrival order, of the `response`
fields of all records.  (The unamended claim — invariance under arbitrary
chunk boundaries — is refuted by `C1_counterexample`: a record split
mid-line across chunks is lost.) -/
theorem C1_result_concat (b : Json)
    (hb : jsTruthyOpt (b.getField "prompt") = true)
    (st : Nat) (h1 : 200 ≤ st) (h2 : st ≤ 299) (bt : String)
    (blocks : List (List String))
    (hnl : ∀ l ∈ blocks.flatten, nlFree l = true)
    (hrec : ∀ l ∈ blocks.flatten,
      nonBlank l = true ∧ (respStringOf l).isSome) :
    handle ⟨"POST", Except.ok b⟩ ⟨st, bt, true, blocks.map chunkOfLines⟩
      = ⟨⟨200, Body.success
            (String.join (blocks.flatten.map fun l => (respStringOf l).getD ""))⟩,
         true⟩ := by
  rw [handle_success b hb st h1 h2 bt (blocks.map chunkOfLines),
    aggregate_blocks blocks hnl, foldl_resp blocks.flatten hrec]

/-- Witness for `C1_result_concat`: the spec's first concrete scenario —
records `response:"Hel"` then `response:"lo"`, one chunk each — yields
"Hello". -/
theorem C1_result_concat_witness :
    handle ⟨"POST", Except.ok (Json.obj [("prompt", Json.str "Hi")])⟩
        ⟨200, "", true,
          ([["\x7b\"response\":\"Hel\",\"done\":false\x7d"],
            ["\x7b\"response\":\"lo\",\"done\":true\x7d"]]).map chunkOfLines⟩
      = ⟨⟨200, Body.success "Hello"⟩, true⟩ := by
  have h := C1_result_concat (Json.obj [("prompt", Json.str "Hi")]) rfl
    200 (by decide) (by decide) ""
    [["\x7b\"response\":\"Hel\",\"done\":false\x7d"],
     ["\x7b\"response\":\"lo\",\"done\":true\x7d"]]
    (by decide) (by decide)
  exact h.trans (by rfl)

/-- Claim C2, counterexample: the same JSON line delivered whole parses to
a record contributing "A", but delivered split across two chunks it is not
reassembled — its two fragments each fail `JSON.parse` and are skipped, so
the decoded records differ.  The code holds no trailing partial line across
chunk boundaries. -/
theorem C2_counterexample :
    aggregate ["\x7b\"respon", "se\":\"A\",\"done\":false\x7d\n"] = "" ∧
    aggregate ["\x7b\"respon" ++ "se\":\"A\",\"done\":false\x7d\n"] = "A" ∧
    ("" : String) ≠ "A" :=
  ⟨rfl, rfl, by decide⟩

/-- Claim C2 (amended): each chunk is split on "\n" independently and no
partial line is carried between chunks, so a line split across chunks is
parsed as two separate (failing) fragments; decoding is chunk-boundary
invariant only when every chunk boundary falls on a line terminator: any
two groupings of the same sequence of terminator-free lines into chunks
aggregate to the same text. -/
theorem C2_line_boundary_invariance (b1 b2 : List (List String))
    (h1 : ∀ l ∈ b1.flatten, nlFree l = true)
    (h2 : ∀ l ∈ b2.flatten, nlFree l = true)
    (hjoin : b1.flatten = b2.flatten) :
    aggregate (b1.map chunkOfLines) = aggregate (b2.map chunkOfLines) := by
  rw [aggregate_blocks b1 h1, aggregate_blocks b2 h2, hjoin]

/-- Witness for `C2_line_boundary_invariance`: two records delivered as two
chunks or as one chunk aggregate identically. -/
theorem C2_line_boundary_invariance_witness :
    aggregate (([["\x7b\"response\":\"x\"\x7d"], ["\x7b\"done\":true\x7d"]]).map chunkOfLines)
      = aggregate (([["\x7b\"response\":\"x\"\x7d", "\x7b\"done\":true\x7d"]]).map chunkOfLines) :=
  C2_line_boundary_invariance
    [["\x7b\"response\":\"x\"\x7d"], ["\x7b\"done\":true\x7d"]]
    [["\x7b\"response\":\"x\"\x7d", "\x7b\"done\":true\x7d"]]
    (by decide) (by decide) rfl

/-- Claim C3, counterexample: a whitespace-only prompt `" "` is truthy in
JavaScript (`!prompt` is false for any non-empty string), so the handler
does NOT reject it: the upstream call is issued and the request succeeds,
contradicting the claim that whitespace-only prompts yield an error and no
upstream call. -/
theorem C3_counterexample :
    (handle ⟨"POST", Except.ok (Json.obj [("prompt", Json.str " ")])⟩
        ⟨200, "", true, []⟩).upstreamCalled = true ∧
    (handle ⟨"POST", Except.ok (Json.obj [("prompt", Json.str " ")])⟩
        ⟨200, "", true, []⟩).response = ⟨200, Body.success ""⟩ :=
  ⟨rfl, rfl⟩

/-- Claim C3 (amended): a prompt that is the EMPTY string (or missing, or
otherwise falsy) yields the 500 "Prompt is required" error and the upstream
call is never issued; a whitespace-only prompt, however, passes the `!prompt`
check and does reach upstream (see `C3_counterexample`). -/
theorem C3_empty_prompt (up : Upstream) (b : Json)
    (hb : b.getField "prompt" = some (Json.str "")) :
    handle ⟨"POST", Except.ok b⟩ up
      = ⟨⟨500, Body.failure "Prompt is required"⟩, false⟩ := by
  cases b with
  | null => simp [Json.getField] at hb
  | bool v => simp [Json.getField] at hb
  | num q => simp [Json.getField] at hb
  | str t => simp [Json.getField] at hb
  | arr xs => simp [Json.getField] at hb
  | obj fs =>
    have m1 : ¬(("POST" : String) = "OPTIONS") := by decide
    have m2 : ¬(("POST" : String) ≠ "POST") := by decide
    unfold handle
    rw [if_neg m1, if_neg m2]
    simp [jsTruthyOpt, hb, Json.truthy]

/-- Witness for `C3_empty_prompt`. -/
theorem C3_empty_prompt_witness :
    handle ⟨"POST", Except.ok (Json.obj [("prompt", Json.str "")])⟩
        ⟨200, "", true, []⟩
      = ⟨⟨500, Body.failure "Prompt is required"⟩, false⟩ :=
  C3_empty_prompt ⟨200, "", true, []⟩ (Json.obj [("prompt", Json.str "")]) rfl

/-- Claim C4: a stream line that fails `JSON.parse` is skipped (its chunk
leaves the accumulator unchanged), aggregation of all surrounding valid
records continues, and for a valid request over a 2xx upstream the handler
still returns the success outcome built from the remaining records — the
malformed line is never surfaced to the caller as an error. -/
theorem C4_malformed_line_skipped (pre post : List String) (c line : String)
    (hsplit : splitLines c = [line, ""])
    (hbad : Json.parse line = none) :
    aggregate (pre ++ c :: post) = aggregate (pre ++ post) ∧
    ∀ b : Json, jsTruthyOpt (b.getField "prompt") = true →
      ∀ st : Nat, 200 ≤ st → st ≤ 299 → ∀ bt : String,
        handle ⟨"POST", Except.ok b⟩ ⟨st, bt, true, pre ++ c :: post⟩
          = ⟨⟨200, Body.success (aggregate (pre ++ post))⟩, true⟩ := by
  have hchunk : ∀ a, processChunk a c = a := by
    intro a
    unfold processChunk
    rw [hsplit]
    show lineStep (lineStep a line) "" = a
    have hl : lineStep a line = a := by
      unfold lineStep
      by_cases hnb : nonBlank line = true
      · rw [if_pos hnb]; unfold processLine; simp only [hbad]
      · rw [if_neg hnb]
    rw [hl]
    rfl
  have hagg : aggregate (pre ++ c :: post) = aggregate (pre ++ post) := by
    have e1 : pre ++ c :: post = (pre ++ [c]) ++ post := by simp
    rw [e1, aggregate_append, aggregate_append pre [c],
      show aggregate [c] = "" from hchunk "",
      strAppend_nil, ← aggregate_append]
  refine ⟨hagg, ?_⟩
  intro b hb st h1 h2 bt
  rw [handle_success b hb st h1 h2 bt _, hagg]

/-- Witness for `C4_malformed_line_skipped`: a malformed line between two
valid records is dropped and the request still succeeds with "ab". -/
theorem C4_malformed_line_skipped_witness :
    aggregate (["\x7b\"response\":\"a\",\"done\":false\x7d\n"]
        ++ "nonsense\n" :: ["\x7b\"response\":\"b\",\"done\":true\x7d\n"])
      = aggregate (["\x7b\"response\":\"a\",\"done\":false\x7d\n"]
        ++ ["\x7b\"response\":\"b\",\"done\":true\x7d\n"]) ∧
    handle ⟨"POST", Except.ok (Json.obj [("prompt", Json.str "q")])⟩
        ⟨200, "", true, ["\x7b\"response\":\"a\",\"done\":false\x7d\n"]
          ++ "nonsense\n" :: ["\x7b\"response\":\"b\",\"done\":true\x7d\n"]⟩
      = ⟨⟨200, Body.success
            (aggregate (["\x7b\"response\":\"a\",\"done\":false\x7d\n"]
              ++ ["\x7b\"response\":\"b\",\"done\":true\x7d\n"]))⟩, true⟩ := by
  have h := C4_malformed_line_skipped
    ["\x7b\"response\":\"a\",\"done\":false\x7d\n"]
    ["\x7b\"response\":\"b\",\"done\":true\x7d\n"]
    "nonsense\n" "nonsense" rfl rfl
  exact ⟨h.1, h.2 (Json.obj [("prompt", Json.str "q")]) rfl
    200 (by decide) (by decide) ""⟩

/-- Claim C5: for a valid request, a non-2xx upstream status makes the
handler return HTTP 500 with the error message that embeds both the
upstream status code and the upstream body text
(`Ollama API error: status, body`). -/
theorem C5_upstream_error (b : Json)
    (hb : jsTruthyOpt (b.getField "prompt") = true)
    (st : Nat) (hst : ¬(200 ≤ st ∧ st ≤ 299)) (bt : String) (hr : Bool)
    (cs : List String) :
    handle ⟨"POST", Except.ok b⟩ ⟨st, bt, hr, cs⟩
      = ⟨⟨500, Body.failure
            ("Ollama API error: " ++ toString st ++ ", " ++ bt)⟩, true⟩ := by
  cases b with
  | null => simp [Json.getField, jsTruthyOpt] at hb
  | bool v => simp [Json.getField, jsTruthyOpt] at hb
  | num q => simp [Json.getField, jsTruthyOpt] at hb
  | str t => simp [Json.getField, jsTruthyOpt] at hb
  | arr xs => simp [Json.getField, jsTruthyOpt] at hb
  | obj fs =>
    have m1 : ¬(("POST" : String) = "OPTIONS") := by decide
    have m2 : ¬(("POST" : String) ≠ "POST") := by decide
    unfold handle
    rw [if_neg m1, if_neg m2]
    simp only [hb, Bool.not_true, Bool.false_eq_true, if_false]
    rw [if_pos hst]

/-- Witness for `C5_upstream_error`: the spec's scenario — upstream 503
with body "overloaded" — yields the 500 error embedding both. -/
theorem C5_upstream_error_witness :
    handle ⟨"POST", Except.ok (Json.obj [("prompt", Json.str "Hi")])⟩
        ⟨503, "overloaded", true, []⟩
      = ⟨⟨500, Body.failure "Ollama API error: 503, overloaded"⟩, true⟩ := by
  have h := C5_upstream_error (Json.obj [("prompt", Json.str "Hi")]) rfl
    503 (by decide) "overloaded" true []
  exact h.trans (by rfl)

/-- Claim C6: a request whose method is neither POST nor OPTIONS is
answered 405 with body error "Method Not Allowed", for every request body
and every upstream behaviour — so neither body validation nor any upstream
logic is reached, and the upstream call is never issued. -/
theorem C6_method_not_allowed (req : InboundRequest) (up : Upstream)
    (h1 : req.method ≠ "OPTIONS") (h2 : req.method ≠ "POST") :
    handle req up = ⟨⟨405, Body.failure "Method Not Allowed"⟩, false⟩ := by
  unfold handle
  rw [if_neg h1, if_pos h2]

/-- Witness for `C6_method_not_allowed`: a GET request. -/
theorem C6_method_not_allowed_witness :
    handle ⟨"GET", Except.error "unread body"⟩ ⟨200, "", true, []⟩
      = ⟨⟨405, Body.failure "Method Not Allowed"⟩, false⟩ :=
  C6_method_not_allowed ⟨"GET", Except.error "unread body"⟩
    ⟨200, "", true, []⟩ (by decide) (by decide)

/-- Claim C7: a valid request whose 2xx upstream stream closes after zero
chunks (empty upstream response body) yields the success outcome with the
empty string, not an error. -/
theorem C7_empty_stream (b : Json)
    (hb : jsTruthyOpt (b.getField "prompt") = true)
    (st : Nat) (h1 : 200 ≤ st) (h2 : st ≤ 299) (bt : String) :
    handle ⟨"POST", Except.ok b⟩ ⟨st, bt, true, []⟩
      = ⟨⟨200, Body.success ""⟩, true⟩ :=
  handle_success b hb st h1 h2 bt []

/-- Witness for `C7_empty_stream`. -/
theorem C7_empty_stream_witness :
    handle ⟨"POST", Except.ok (Json.obj [("prompt", Json.str "Hi")])⟩
        ⟨200, "", true, []⟩
      = ⟨⟨200, Body.success ""⟩, true⟩ :=
  C7_empty_stream (Json.obj [("prompt", Json.str "Hi")]) rfl
    200 (by decide) (by decide) ""

/-- Claim C8: the accumulated result depends only on the `response` fields
of successfully parsed lines, never on their `done` fields (the
`if (jsonResponse.done)` branch is empty): two parsed lines with the same
`response` field — e.g. differing only in `done` — contribute identically,
and reading never stops at a `done` record: the text over a longer stream
is the prefix's text followed by the suffix's contribution, whatever the
prefix contained. -/
theorem C8_done_irrelevant (acc l1 l2 : String) (v1 v2 : Json)
    (hp1 : Json.parse l1 = some v1) (hp2 : Json.parse l2 = some v2)
    (hresp : v1.getField "response" = v2.getField "response") :
    processLine acc l1 = processLine acc l2 ∧
    ∀ cs ds : List String, aggregate (cs ++ ds) = aggregate cs ++ aggregate ds := by
  refine ⟨?_, aggregate_append⟩
  unfold processLine
  simp only [hp1, hp2, hresp]

/-- Witness for `C8_done_irrelevant`: flipping `done` from true to false
leaves the line's contribution unchanged, and records after a `done=true`
chunk are still appended. -/
theorem C8_done_irrelevant_witness :
    processLine "" "\x7b\"response\":\"a\",\"done\":true\x7d"
      = processLine "" "\x7b\"response\":\"a\",\"done\":false\x7d" ∧
    aggregate (["\x7b\"response\":\"a\",\"done\":true\x7d\n"]
        ++ ["\x7b\"response\":\"b\",\"done\":false\x7d\n"])
      = aggregate ["\x7b\"response\":\"a\",\"done\":true\x7d\n"]
        ++ aggregate ["\x7b\"response\":\"b\",\"done\":false\x7d\n"] := by
  have h := C8_done_irrelevant ""
    "\x7b\"response\":\"a\",\"done\":true\x7d"
    "\x7b\"response\":\"a\",\"done\":false\x7d"
    (Json.obj [("response", Json.str "a"), ("done", Json.bool true)])
    (Json.obj [("response", Json.str "a"), ("done", Json.bool false)])
    rfl rfl rfl
  exact ⟨h.1, h.2 ["\x7b\"response\":\"a\",\"done\":true\x7d\n"]
    ["\x7b\"response\":\"b\",\"done\":false\x7d\n"]⟩

/-- Claim C9: a POST whose body fails JSON parsing (`req.json()` throws) is
answered 500 with the thrown message as the error body, and the upstream
call is never issued — the `fetch` sits after the body parse in the same
`try`, so nothing observable happens before the error response. -/
theorem C9_invalid_body (msg : String) (up : Upstream) :
    handle ⟨"POST", Except.error msg⟩ up
      = ⟨⟨500, Body.failure msg⟩, false⟩ := by
  have m1 : ¬(("POST" : String) = "OPTIONS") := by decide
  have m2 : ¬(("POST" : String) ≠ "POST") := by decide
  unfold handle
  rw [if_neg m1, if_neg m2]

/-- Position-independence of one request in a served sequence. -/
theorem serveAll_get (pre post : List (InboundRequest × Upstream))
    (r : InboundRequest) (u : Upstream) :
    (serveAll (pre ++ (r, u) :: post))[pre.length]? = some (handle r u) := by
  induction pre with
  | nil => simp [serveAll]
  | cons x xs ih => simpa [serveAll] using ih

/-- Claim C10: the handler is deterministic and shares no state across
requests: in any served sequence, the outcome at a request's position is
exactly `handle` of that request and its upstream behaviour, and two
sequences containing the same request/upstream pair produce the identical
outcome for it regardless of what is served before or after. -/
theorem C10_deterministic_stateless
    (pre post pre2 post2 : List (InboundRequest × Upstream))
    (r : InboundRequest) (u : Upstream) :
    (serveAll (pre ++ (r, u) :: post))[pre.length]? = some (handle r u) ∧
    (serveAll (pre ++ (r, u) :: post))[pre.length]?
      = (serveAll (pre2 ++ (r, u) :: post2))[pre2.length]? :=
  ⟨serveAll_get pre post r u,
   (serveAll_get pre post r u).trans (serveAll_get pre2 post2 r u).symm⟩
